import Mathlib

/-!
Verification of the article-relevance scoring pipeline of `news_relevance.py`
(repository `bid_ally`).

The Python functions are shallowly embedded as Lean definitions:

* floating-point numbers are modelled as real numbers;
* the OpenAI embedding / chat endpoints are modelled as oracle functions
  passed explicitly as parameters; a result of `Except.error` models a raised
  transport exception;
* a Python exception escaping a function is modelled by the function
  returning `Except.error`;
* every outbound model call issued by a function is recorded in a trace of
  `ApiCall` values returned alongside the result.
-/

/-- Exceptions that can escape the functions of `news_relevance.py`:
`ValueError` (raised explicitly by `compute_cosine_similarity` and by the
TF-IDF vectorizer on an empty vocabulary), errors raised by the OpenAI
client, and Python's `ZeroDivisionError`. -/
inductive Err where
  | valueError (msg : String)
  | apiError (msg : String)
  | zeroDivisionError

/-- Accumulation loop of `compute_cosine_similarity`: iterates over
`zip(vec_a, vec_b)` updating `(dot_product, norm_a, norm_b)`. -/
def cosFold : List (ℝ × ℝ) → ℝ × ℝ × ℝ → ℝ × ℝ × ℝ
  | [], acc => acc
  | (a, b) :: rest, (d, na, nb) => cosFold rest (d + a * b, na + a * a, nb + b * b)

open Classical in
/-- `compute_cosine_similarity` from `news_relevance.py` (lines 14-35):
raises `ValueError` on a dimension mismatch, returns `0.0` when either
accumulated squared norm is zero, otherwise `dot / (sqrt(norm_a) * sqrt(norm_b))`. -/
noncomputable def compute_cosine_similarity (vec_a vec_b : List ℝ) : Except Err ℝ :=
  if vec_a.length ≠ vec_b.length then
    Except.error (Err.valueError "Vectors must be the same dimension.")
  else
    let acc := cosFold (vec_a.zip vec_b) (0, 0, 0)
    if acc.2.1 = 0 ∨ acc.2.2 = 0 then Except.ok 0
    else Except.ok (acc.1 / (Real.sqrt acc.2.1 * Real.sqrt acc.2.2))

/-- Mathematical dot product of two vectors (truncating to the shorter one,
as Python's `zip` does). -/
def dotList (a b : List ℝ) : ℝ := ((a.zip b).map (fun p => p.1 * p.2)).sum

/-- Mathematical sum of squares of a vector. -/
def sqSum (a : List ℝ) : ℝ := (a.map (fun x => x * x)).sum

lemma cosFold_eq (l : List (ℝ × ℝ)) (d na nb : ℝ) :
    cosFold l (d, na, nb) =
      (d + (l.map (fun p => p.1 * p.2)).sum,
       na + (l.map (fun p => p.1 * p.1)).sum,
       nb + (l.map (fun p => p.2 * p.2)).sum) := by
  induction l generalizing d na nb with
  | nil => simp [cosFold]
  | cons p rest ih =>
      obtain ⟨a, b⟩ := p
      simp only [cosFold, ih, List.map_cons, List.sum_cons]
      refine Prod.ext (by ring) (Prod.ext (by ring) (by ring))

lemma zip_map_fst_sq (a b : List ℝ) (h : a.length = b.length) :
    ((a.zip b).map (fun p => p.1 * p.1)).sum = sqSum a := by
  have hfst : (a.zip b).map Prod.fst = a := List.map_fst_zip a b (le_of_eq h)
  have hmm : (a.zip b).map (fun p => p.1 * p.1) =
      ((a.zip b).map Prod.fst).map (fun x => x * x) := by
    rw [List.map_map]
    rfl
  rw [sqSum, hmm, hfst]

lemma zip_map_snd_sq (a b : List ℝ) (h : a.length = b.length) :
    ((a.zip b).map (fun p => p.2 * p.2)).sum = sqSum b := by
  have hsnd : (a.zip b).map Prod.snd = b := List.map_snd_zip a b (le_of_eq h.symm)
  have hmm : (a.zip b).map (fun p => p.2 * p.2) =
      ((a.zip b).map Prod.snd).map (fun x => x * x) := by
    rw [List.map_map]
    rfl
  rw [sqSum, hmm, hsnd]

lemma compute_cosine_similarity_of_length_eq (a b : List ℝ) (h : a.length = b.length) :
    compute_cosine_similarity a b =
      if sqSum a = 0 ∨ sqSum b = 0 then Except.ok 0
      else Except.ok (dotList a b / (Real.sqrt (sqSum a) * Real.sqrt (sqSum b))) := by
  rw [compute_cosine_similarity, if_neg (by simpa using h)]
  have hacc : cosFold (a.zip b) (0, 0, 0) = (dotList a b, sqSum a, sqSum b) := by
    rw [cosFold_eq, zip_map_fst_sq a b h, zip_map_snd_sq a b h]
    simp [dotList]
  rw [hacc]

lemma compute_cosine_similarity_of_length_ne (a b : List ℝ) (h : a.length ≠ b.length) :
    compute_cosine_similarity a b =
      Except.error (Err.valueError "Vectors must be the same dimension.") := by
  rw [compute_cosine_similarity, if_pos (by simpa using h)]

/-- C4: for equal-length vectors the function returns
`dot(a,b) / (norm(a) * norm(b))`, except that it returns exactly `0.0` when
either vector has zero (squared) norm; on a length mismatch it raises a
dimension-mismatch `ValueError`.  In particular `cosine([1,0],[1,0]) = 1`,
`cosine([1,0],[0,1]) = 0`, `cosine([0,0],[1,1]) = 0` and
`cosine([1,2],[1,2,3])` raises. -/
theorem C4_cosine_definition :
    (∀ a b : List ℝ, a.length = b.length → sqSum a ≠ 0 → sqSum b ≠ 0 →
      compute_cosine_similarity a b =
        Except.ok (dotList a b / (Real.sqrt (sqSum a) * Real.sqrt (sqSum b)))) ∧
    (∀ a b : List ℝ, a.length = b.length → (sqSum a = 0 ∨ sqSum b = 0) →
      compute_cosine_similarity a b = Except.ok 0) ∧
    (∀ a b : List ℝ, a.length ≠ b.length →
      compute_cosine_similarity a b =
        Except.error (Err.valueError "Vectors must be the same dimension.")) ∧
    compute_cosine_similarity [1, 0] [1, 0] = Except.ok 1 ∧
    compute_cosine_similarity [1, 0] [0, 1] = Except.ok 0 ∧
    compute_cosine_similarity [0, 0] [1, 1] = Except.ok 0 ∧
    compute_cosine_similarity [1, 2] [1, 2, 3] =
      Except.error (Err.valueError "Vectors must be the same dimension.") := by
  refine ⟨?_, ?_, ?_, ?_, ?_, ?_, ?_⟩
  · intro a b h ha hb
    rw [compute_cosine_similarity_of_length_eq a b h,
      if_neg (by push_neg; exact ⟨ha, hb⟩)]
  · intro a b h hz
    rw [compute_cosine_similarity_of_length_eq a b h, if_pos hz]
  · intro a b h
    exact compute_cosine_similarity_of_length_ne a b h
  · rw [compute_cosine_similarity_of_length_eq _ _ rfl]
    have h1 : sqSum [(1 : ℝ), 0] = 1 := by norm_num [sqSum]
    rw [h1]
    have hd : dotList [(1 : ℝ), 0] [1, 0] = 1 := by norm_num [dotList]
    rw [if_neg (by norm_num), hd]
    norm_num [Real.sqrt_one]
  · rw [compute_cosine_similarity_of_length_eq [(1 : ℝ), 0] [0, 1] rfl]
    have h1 : sqSum [(1 : ℝ), 0] = 1 := by norm_num [sqSum]
    have h2 : sqSum [(0 : ℝ), 1] = 1 := by norm_num [sqSum]
    have hd : dotList [(1 : ℝ), 0] [0, 1] = 0 := by norm_num [dotList]
    rw [h1, h2, if_neg (by norm_num), hd]
    norm_num
  · rw [compute_cosine_similarity_of_length_eq [(0 : ℝ), 0] [1, 1] rfl]
    have h1 : sqSum [(0 : ℝ), 0] = 0 := by norm_num [sqSum]
    rw [h1, if_pos (Or.inl rfl)]
  · exact compute_cosine_similarity_of_length_ne _ _ (by norm_num)

/-- C4 witness: the general clauses of `C4_cosine_definition` applied at
concrete inputs, discharging every hypothesis there. -/
theorem C4_cosine_definition_witness :
    (([(1 : ℝ), 0] : List ℝ).length = ([(1 : ℝ), 0] : List ℝ).length ∧
      sqSum [(1 : ℝ), 0] ≠ 0 ∧
      compute_cosine_similarity [(1 : ℝ), 0] [1, 0] =
        Except.ok (dotList [(1 : ℝ), 0] [1, 0] /
          (Real.sqrt (sqSum [(1 : ℝ), 0]) * Real.sqrt (sqSum [(1 : ℝ), 0])))) ∧
    (([(0 : ℝ), 0] : List ℝ).length = ([(1 : ℝ), 1] : List ℝ).length ∧
      sqSum [(0 : ℝ), 0] = 0 ∧
      compute_cosine_similarity [(0 : ℝ), 0] [1, 1] = Except.ok 0) ∧
    (([(1 : ℝ), 2] : List ℝ).length ≠ ([(1 : ℝ), 2, 3] : List ℝ).length ∧
      compute_cosine_similarity [(1 : ℝ), 2] [1, 2, 3] =
        Except.error (Err.valueError "Vectors must be the same dimension.")) := by
  have hne : sqSum [(1 : ℝ), 0] ≠ 0 := by norm_num [sqSum]
  have hz : sqSum [(0 : ℝ), 0] = 0 := by norm_num [sqSum]
  have hlen : ([(1 : ℝ), 2] : List ℝ).length ≠ ([(1 : ℝ), 2, 3] : List ℝ).length := by
    norm_num
  exact ⟨⟨rfl, hne, C4_cosine_definition.1 [1, 0] [1, 0] rfl hne hne⟩,
    ⟨rfl, hz, C4_cosine_definition.2.1 [0, 0] [1, 1] rfl (Or.inl hz)⟩,
    ⟨hlen, C4_cosine_definition.2.2.1 [1, 2] [1, 2, 3] hlen⟩⟩

/-- C10: `compute_cosine_similarity` is symmetric in its two arguments
(including the dimension-mismatch error case). -/
theorem C10_cosine_symmetric (a b : List ℝ) :
    compute_cosine_similarity a b = compute_cosine_similarity b a := by
  by_cases h : a.length = b.length
  · rw [compute_cosine_similarity_of_length_eq a b h,
      compute_cosine_similarity_of_length_eq b a h.symm]
    have hdot : dotList b a = dotList a b := by
      rw [dotList, dotList, ← List.zip_swap a b, List.map_map]
      refine congrArg List.sum (List.map_congr_left (fun p _ => ?_))
      exact mul_comm p.2 p.1
    rw [hdot]
    by_cases hz : sqSum a = 0 ∨ sqSum b = 0
    · rw [if_pos hz, if_pos (Or.symm hz)]
    · rw [if_neg hz, if_neg (fun h2 => hz (Or.symm h2)), mul_comm]
  · rw [compute_cosine_similarity_of_length_ne a b h,
      compute_cosine_similarity_of_length_ne b a (fun h2 => h h2.symm)]

/-- Word characters of the vectorizer's token pattern `\w\w+` (ASCII): letters,
digits and underscore. -/
def isWordChar (c : Char) : Bool := c.isAlphanum || c = '_'

/-- Splits a character list into its maximal runs of word characters,
dropping the separators.  `acc` holds the (reversed) run in progress. -/
def wordRunsAux : List Char → List Char → List (List Char)
  | [], [] => []
  | [], acc => [acc.reverse]
  | c :: cs, acc =>
    if isWordChar c then wordRunsAux cs (c :: acc)
    else
      match acc with
      | [] => wordRunsAux cs []
      | _ :: _ => acc.reverse :: wordRunsAux cs []

/-- Maximal word-character runs of a character list. -/
def wordRuns (l : List Char) : List (List Char) := wordRunsAux l []

/-- The scikit-learn built-in English stop-word list, used by
`TfidfVectorizer(stop_words="english")`. -/
def englishStopWords : List String :=
  ["a", "about", "above", "across", "after", "afterwards", "again", "against",
   "all", "almost", "alone", "along", "already", "also", "although", "always",
   "am", "among", "amongst", "amoungst", "amount", "an", "and", "another",
   "any", "anyhow", "anyone", "anything", "anyway", "anywhere", "are", "around",
   "as", "at", "back", "be", "became", "because", "become", "becomes",
   "becoming", "been", "before", "beforehand", "behind", "being", "below",
   "beside", "besides", "between", "beyond", "bill", "both", "bottom", "but",
   "by", "call", "can", "cannot", "cant", "co", "con", "could", "couldnt",
   "cry", "de", "describe", "detail", "do", "done", "down", "due", "during",
   "each", "eg", "eight", "either", "eleven", "else", "elsewhere", "empty",
   "enough", "etc", "even", "ever", "every", "everyone", "everything",
   "everywhere", "except", "few", "fifteen", "fifty", "fill", "find", "fire",
   "first", "five", "for", "former", "formerly", "forty", "found", "four",
   "from", "front", "full", "further", "get", "give", "go", "had", "has",
   "hasnt", "have", "he", "hence", "her", "here", "hereafter", "hereby",
   "herein", "hereupon", "hers", "herself", "him", "himself", "his", "how",
   "however", "hundred", "i", "ie", "if", "in", "inc", "indeed", "interest",
   "into", "is", "it", "its", "itself", "keep", "last", "latter", "latterly",
   "least", "less", "ltd", "made", "many", "may", "me", "meanwhile", "might",
   "mill", "mine", "more", "moreover", "most", "mostly", "move", "much",
   "must", "my", "myself", "name", "namely", "neither", "never",
   "nevertheless", "next", "nine", "no", "nobody", "none", "noone", "nor",
   "not", "nothing", "now", "nowhere", "of", "off", "often", "on", "once",
   "one", "only", "onto", "or", "other", "others", "otherwise", "our", "ours",
   "ourselves", "out", "over", "own", "part", "per", "perhaps", "please",
   "put", "rather", "re", "same", "see", "seem", "seemed", "seeming", "seems",
   "serious", "several", "she", "should", "show", "side", "since", "sincere",
   "six", "sixty", "so", "some", "somehow", "someone", "something",
   "sometime", "sometimes", "somewhere", "still", "such", "system", "take",
   "ten", "than", "that", "the", "their", "them", "themselves", "then",
   "thence", "there", "thereafter", "thereby", "therefore", "therein",
   "thereupon", "these", "they", "thick", "thin", "third", "this", "those",
   "though", "three", "through", "throughout", "thru", "thus", "to",
   "together", "too", "top", "toward", "towards", "twelve", "twenty", "two",
   "un", "under", "until", "up", "upon", "us", "very", "via", "was", "we",
   "well", "were", "what", "whatever", "when", "whence", "whenever", "where",
   "whereafter", "whereas", "whereby", "wherein", "whereupon", "wherever",
   "whether", "which", "while", "whither", "who", "whoever", "whole", "whom",
   "whose", "why", "will", "with", "within", "without", "would", "yet", "you",
   "your", "yours", "yourself", "yourselves"]

/-- Tokenization of `TfidfVectorizer`: lowercase the text, extract maximal
word-character runs, keep only the runs of length at least two
(token pattern `\w\w+`). -/
def sklearnTokenize (s : String) : List String :=
  ((wordRuns (s.data.map Char.toLower)).filter (fun r => 2 ≤ r.length)).map
    (fun r => String.mk r)

/-- Analyzer of `TfidfVectorizer(stop_words="english")`: tokenize, then
remove English stop words. -/
def sklearnAnalyze (s : String) : List String :=
  (sklearnTokenize s).filter (fun t => !(englishStopWords.contains t))

/-- Vocabulary built by `fit_transform` over the document list (`min_df=1`:
every term that appears in any document is retained). -/
def vocabulary (docs : List String) : List String :=
  ((docs.map sklearnAnalyze).flatten).dedup

/-- Document frequency of a term among the fitted documents. -/
def dfCount (docs : List String) (t : String) : ℕ :=
  (docs.filter (fun d => (sklearnAnalyze d).contains t)).length

/-- Smoothed inverse document frequency of `TfidfVectorizer`
(`smooth_idf=True`): `ln((1 + n) / (1 + df)) + 1`. -/
noncomputable def idf (docs : List String) (t : String) : ℝ :=
  Real.log ((1 + (docs.length : ℝ)) / (1 + (dfCount docs t : ℝ))) + 1

/-- Unnormalized TF-IDF entry of document `d` at term `t`: raw term count
times smoothed idf. -/
noncomputable def tfidfWeight (docs : List String) (d t : String) : ℝ :=
  (((sklearnAnalyze d).count t : ℕ) : ℝ) * idf docs t

/-- Dot product of the unnormalized TF-IDF rows of `d1` and `d2` over the
fitted vocabulary. -/
noncomputable def rowDot (docs : List String) (d1 d2 : String) : ℝ :=
  ((vocabulary docs).map (fun t => tfidfWeight docs d1 t * tfidfWeight docs d2 t)).sum

open Classical in
/-- Cosine similarity between two TF-IDF document rows as computed by
`cosine_similarity` on the `fit_transform` output: rows are L2-normalized
with zero rows left as zero, so the similarity is `0` whenever either row is
zero, else `dot / (norm * norm)`. -/
noncomputable def tfidfCosine (docs : List String) (d1 d2 : String) : ℝ :=
  if rowDot docs d1 d1 = 0 ∨ rowDot docs d2 d2 = 0 then 0
  else rowDot docs d1 d2 / (Real.sqrt (rowDot docs d1 d1) * Real.sqrt (rowDot docs d2 d2))

open Classical in
/-- `passes_local_pre_filter` from `news_relevance.py` (lines 38-67): fits a
TF-IDF space on `docs = [solicitation_text, article_text]` (raising
`ValueError` when the vocabulary is empty, as `fit_transform` does), computes
the cosine similarity of the two rows and returns `sim >= local_threshold`. -/
noncomputable def passes_local_pre_filter (article_text solicitation_text : String)
    (local_threshold : ℝ) : Except Err Bool :=
  let docs := [solicitation_text, article_text]
  if vocabulary docs = [] then
    Except.error
      (Err.valueError "empty vocabulary; perhaps the documents only contain stop words")
  else if tfidfCosine docs solicitation_text article_text ≥ local_threshold then
    Except.ok true
  else Except.ok false

lemma sklearnAnalyze_empty : sklearnAnalyze "" = [] := rfl

lemma tfidfWeight_empty (docs : List String) (t : String) :
    tfidfWeight docs "" t = 0 := by
  simp [tfidfWeight, sklearnAnalyze_empty]

lemma rowDot_empty_right (docs : List String) (d : String) :
    rowDot docs d "" = 0 := by
  refine List.sum_eq_zero (fun x hx => ?_)
  obtain ⟨t, _, rfl⟩ := List.mem_map.mp hx
  rw [tfidfWeight_empty, mul_zero]

lemma tfidfCosine_empty_right (docs : List String) (d : String) :
    tfidfCosine docs d "" = 0 := by
  rw [tfidfCosine, if_pos (Or.inr (rowDot_empty_right docs ""))]

lemma passes_empty_article_false (s : String) (t : ℝ)
    (hvocab : vocabulary [s, ""] ≠ []) (ht : ¬ ((0 : ℝ) ≥ t)) :
    passes_local_pre_filter "" s t = Except.ok false := by
  simp only [passes_local_pre_filter]
  rw [if_neg hvocab]
  have hsim : tfidfCosine [s, ""] s "" = 0 := tfidfCosine_empty_right [s, ""] s
  rw [if_neg (hsim ▸ ht)]

lemma passes_empty_article_true (s : String) (t : ℝ)
    (hvocab : vocabulary [s, ""] ≠ []) (ht : (0 : ℝ) ≥ t) :
    passes_local_pre_filter "" s t = Except.ok true := by
  simp only [passes_local_pre_filter]
  rw [if_neg hvocab]
  have hsim : tfidfCosine [s, ""] s "" = 0 := tfidfCosine_empty_right [s, ""] s
  rw [if_pos (hsim ▸ ht)]

/-- C3: the claim says an empty input text makes `passes_local_pre_filter`
return `false` rather than raise.  On two empty texts the fitted vocabulary
is empty and `fit_transform` raises `ValueError`, which propagates: the
function raises instead of returning `false`. -/
theorem C3_empty_texts_raise :
    passes_local_pre_filter "" "" 0.05 =
      Except.error
        (Err.valueError "empty vocabulary; perhaps the documents only contain stop words") := by
  simp only [passes_local_pre_filter]
  rw [if_pos (by decide)]

/-- C7: for a fixed pair of texts, `passes_local_pre_filter` is monotonically
non-increasing in the threshold: `true` at the larger threshold gives `true`
at the smaller, and `false` at the smaller gives `false` at the larger. -/
theorem C7_prefilter_threshold_monotone (a s : String) (t1 t2 : ℝ) (h : t1 ≤ t2) :
    (passes_local_pre_filter a s t2 = Except.ok true →
      passes_local_pre_filter a s t1 = Except.ok true) ∧
    (passes_local_pre_filter a s t1 = Except.ok false →
      passes_local_pre_filter a s t2 = Except.ok false) := by
  simp only [passes_local_pre_filter]
  by_cases hv : vocabulary [s, a] = []
  · refine ⟨fun hx => ?_, fun hx => ?_⟩
    · rw [if_pos hv] at hx
      simp at hx
    · rw [if_pos hv] at hx
      simp at hx
  · refine ⟨fun htrue => ?_, fun hfalse => ?_⟩
    · rw [if_neg hv] at htrue
      rw [if_neg hv]
      by_cases h2 : tfidfCosine [s, a] s a ≥ t2
      · rw [if_pos (le_trans h h2)]
      · rw [if_neg h2] at htrue
        simp at htrue
    · rw [if_neg hv] at hfalse
      rw [if_neg hv]
      by_cases h1 : tfidfCosine [s, a] s a ≥ t1
      · rw [if_pos h1] at hfalse
        simp at hfalse
      · rw [if_neg (fun h2 => h1 (le_trans h h2))]

/-- C7 witness: the monotonicity theorem applied to a concrete pair of texts
and the concrete thresholds `0.05 ≤ 0.1`. -/
theorem C7_prefilter_threshold_monotone_witness :
    (0.05 : ℝ) ≤ 0.1 ∧
    ((passes_local_pre_filter "" "zz" 0.1 = Except.ok true →
        passes_local_pre_filter "" "zz" 0.05 = Except.ok true) ∧
      (passes_local_pre_filter "" "zz" 0.05 = Except.ok false →
        passes_local_pre_filter "" "zz" 0.1 = Except.ok false)) :=
  ⟨by norm_num, C7_prefilter_threshold_monotone "" "zz" 0.05 0.1 (by norm_num)⟩

/-- Chat model name from `config.py` (the later of the two assignments wins). -/
def GPT_MODEL_CHAT : String := "gpt-4.1-mini"

/-- Embedding model name from `config.py`. -/
def GPT_MODEL_EMBEDDING : String := "text-embedding-3-small"

/-- `config.RELEVANCE_THRESHOLD`, the default GPT similarity threshold. -/
noncomputable def RELEVANCE_THRESHOLD : ℝ := 0.745

/-- A request to the chat-completion endpoint, as assembled by
`openai.ChatCompletion.create` calls in `generate_tags_multi_step`. -/
structure ChatRequest where
  model : String
  systemMsg : String
  userMsg : String
  temperature : ℝ
  maxTokens : ℕ

/-- One outbound OpenAI call (used to trace which calls a function issues). -/
inductive ApiCall where
  | embedding (input : String)
  | chat (request : ChatRequest)

/-- `weights = [N - i for i in range(N)]` from `article_is_relevant`. -/
def weightsList (N : ℕ) : List ℕ := (List.range N).map (fun i => N - i)

/-- The per-tag loop of `article_is_relevant` (lines 227-240): embeds each
tag, computes its cosine similarity with the article embedding and
accumulates `sum_weighted_sims` and `total_weight`.  A failing embedding
call or a cosine `ValueError` propagates (there is no exception handling in
the loop) and ends the trace at the failing tag. -/
noncomputable def tagLoop (embed : String → Except String (List ℝ))
    (article_embedding : List ℝ) :
    List (ℕ × String) → ℝ → ℝ → Except Err (ℝ × ℝ) × List ApiCall
  | [], sum_weighted_sims, total_weight =>
      (Except.ok (sum_weighted_sims, total_weight), [])
  | (weight, tag) :: rest, sum_weighted_sims, total_weight =>
      match embed tag with
      | Except.error e => (Except.error (Err.apiError e), [ApiCall.embedding tag])
      | Except.ok tag_embedding =>
          match compute_cosine_similarity article_embedding tag_embedding with
          | Except.error e => (Except.error e, [ApiCall.embedding tag])
          | Except.ok similarity =>
              let r := tagLoop embed article_embedding rest
                (sum_weighted_sims + similarity * (weight : ℝ))
                (total_weight + (weight : ℝ))
              (r.1, ApiCall.embedding tag :: r.2)

open Classical in
/-- `article_is_relevant` from `news_relevance.py` (lines 160-247).
`threshold = none` models the Python default `threshold=None`, replaced by
`config.RELEVANCE_THRESHOLD`.  The second component is the trace of OpenAI
calls the invocation issues. -/
noncomputable def article_is_relevant (embed : String → Except String (List ℝ))
    (article_title article_text : String) (solicitation_tags : List String)
    (solicitation_text : String) (threshold : Option ℝ) (local_threshold : ℝ) :
    Except Err Bool × List ApiCall :=
  let thr := threshold.getD RELEVANCE_THRESHOLD
  match passes_local_pre_filter article_text solicitation_text local_threshold with
  | Except.error e => (Except.error e, [])
  | Except.ok false => (Except.ok false, [])
  | Except.ok true =>
      if solicitation_tags.length = 0 then (Except.ok false, [])
      else
        match embed article_text with
        | Except.error e =>
            (Except.error (Err.apiError e), [ApiCall.embedding article_text])
        | Except.ok article_embedding =>
            match tagLoop embed article_embedding
                ((weightsList solicitation_tags.length).zip solicitation_tags) 0 0 with
            | (Except.error e, calls) =>
                (Except.error e, ApiCall.embedding article_text :: calls)
            | (Except.ok (sum_weighted_sims, total_weight), calls) =>
                if total_weight = 0 then
                  (Except.error Err.zeroDivisionError,
                    ApiCall.embedding article_text :: calls)
                else if sum_weighted_sims / total_weight ≥ thr then
                  (Except.ok true, ApiCall.embedding article_text :: calls)
                else (Except.ok false, ApiCall.embedding article_text :: calls)

/-- C1: when the lexical pre-filter returns `false`, `article_is_relevant`
returns `false` immediately and its call trace is empty: no embedding and no
chat model call is issued for the pair. -/
theorem C1_prefilter_short_circuit (embed : String → Except String (List ℝ))
    (article_title article_text : String) (solicitation_tags : List String)
    (solicitation_text : String) (threshold : Option ℝ) (local_threshold : ℝ)
    (hpass : passes_local_pre_filter article_text solicitation_text local_threshold =
      Except.ok false) :
    article_is_relevant embed article_title article_text solicitation_tags
      solicitation_text threshold local_threshold = (Except.ok false, []) := by
  simp only [article_is_relevant, hpass]

/-- C1 witness: a concrete pair failing the pre-filter, with the theorem
applied to it. -/
theorem C1_prefilter_short_circuit_witness :
    passes_local_pre_filter "" "zz" 0.05 = Except.ok false ∧
    article_is_relevant (fun _ => Except.ok [(1 : ℝ)]) "t" "" ["x"] "zz"
      (some 0.9) 0.05 = (Except.ok false, []) := by
  have hpass : passes_local_pre_filter "" "zz" 0.05 = Except.ok false :=
    passes_empty_article_false "zz" 0.05 (by decide) (by norm_num)
  exact ⟨hpass,
    C1_prefilter_short_circuit _ "t" "" ["x"] "zz" (some 0.9) 0.05 hpass⟩

/-- C5: the weight assigned to the tag at 0-based index `i` of an `N`-tag
list is `N - i`; and for an empty tag list, once the pre-filter passes,
similarity scoring is skipped entirely (empty call trace) and the verdict is
`false`. -/
theorem C5_weights_and_empty_tags :
    (∀ N i : ℕ, i < N → (weightsList N).getD i 0 = N - i) ∧
    (∀ (embed : String → Except String (List ℝ))
      (article_title article_text solicitation_text : String)
      (threshold : Option ℝ) (local_threshold : ℝ),
      passes_local_pre_filter article_text solicitation_text local_threshold =
        Except.ok true →
      article_is_relevant embed article_title article_text [] solicitation_text
        threshold local_threshold = (Except.ok false, [])) := by
  constructor
  · intro N i hi
    have hlen : i < (weightsList N).length := by simpa [weightsList] using hi
    rw [List.getD_eq_get _ _ hlen]
    simp [weightsList]
  · intro embed article_title atext stext thr lthr hpass
    simp only [article_is_relevant, hpass]
    simp

/-- C5 witness: the weight formula at `N = 3`, `i = 0`, and the empty-tag
clause at a concrete passing pair. -/
theorem C5_weights_and_empty_tags_witness :
    ((0 : ℕ) < 3 ∧ (weightsList 3).getD 0 0 = 3 - 0) ∧
    (passes_local_pre_filter "" "zz" (-1) = Except.ok true ∧
      article_is_relevant (fun _ => Except.error "down") "t" "" [] "zz" none (-1) =
        (Except.ok false, [])) := by
  have hpass : passes_local_pre_filter "" "zz" (-1) = Except.ok true :=
    passes_empty_article_true "zz" (-1) (by decide) (by norm_num)
  exact ⟨⟨by norm_num, C5_weights_and_empty_tags.1 3 0 (by norm_num)⟩,
    ⟨hpass, C5_weights_and_empty_tags.2 _ "t" "" "zz" none (-1) hpass⟩⟩

lemma cosine_one_one :
    compute_cosine_similarity [(1 : ℝ)] [(1 : ℝ)] = Except.ok 1 := by
  rw [compute_cosine_similarity_of_length_eq [(1 : ℝ)] [(1 : ℝ)] rfl]
  have h1 : sqSum [(1 : ℝ)] = 1 := by norm_num [sqSum]
  have hd : dotList [(1 : ℝ)] [(1 : ℝ)] = 1 := by norm_num [dotList]
  rw [h1, hd, if_neg (by norm_num)]
  norm_num

lemma tagLoop_single_ok :
    tagLoop (fun _ => Except.ok [(1 : ℝ)]) [(1 : ℝ)] [(1, "x")] 0 0 =
      (Except.ok (1, 1), [ApiCall.embedding "x"]) := by
  simp only [tagLoop, cosine_one_one]
  norm_num [Prod.mk.injEq]

lemma weightsList_succ (N : ℕ) : weightsList (N + 1) = (N + 1) :: weightsList N := by
  rw [weightsList, List.range_succ_eq_map, List.map_cons, List.map_map, Nat.sub_zero]
  refine congrArg _ ?_
  rw [weightsList]
  refine List.map_congr_left (fun i _ => ?_)
  show N + 1 - (i + 1) = N - i
  omega

lemma weightsList_sum (N : ℕ) :
    ((weightsList N).map (fun (w : ℕ) => (w : ℝ))).sum = (N : ℝ) * ((N : ℝ) + 1) / 2 := by
  induction N with
  | zero => simp [weightsList]
  | succ n ih =>
      rw [weightsList_succ, List.map_cons, List.sum_cons, ih]
      push_cast
      ring

lemma tagLoop_ok_total (embed : String → Except String (List ℝ)) (emb : List ℝ) :
    ∀ (l : List (ℕ × String)) (s0 t0 s t : ℝ) (calls : List ApiCall),
      tagLoop embed emb l s0 t0 = (Except.ok (s, t), calls) →
      t = t0 + ((l.map (fun p => ((p.1 : ℕ) : ℝ))).sum) := by
  intro l
  induction l with
  | nil =>
      intro s0 t0 s t calls h
      simp only [tagLoop, Prod.mk.injEq, Except.ok.injEq] at h
      obtain ⟨⟨hs, ht⟩, hc⟩ := h
      simp [← ht]
  | cons p rest ih =>
      intro s0 t0 s t calls h
      obtain ⟨w, tag⟩ := p
      cases hemb : embed tag with
      | error e =>
          simp only [tagLoop, hemb] at h
          simp at h
      | ok temb =>
          cases hcos : compute_cosine_similarity emb temb with
          | error e =>
              simp only [tagLoop, hemb, hcos] at h
              simp at h
          | ok sim =>
              simp only [tagLoop, hemb, hcos] at h
              rcases hr : tagLoop embed emb rest (s0 + sim * (w : ℝ)) (t0 + (w : ℝ))
                with ⟨res, cl⟩
              rw [hr] at h
              simp only [Prod.mk.injEq] at h
              obtain ⟨h1, h2⟩ := h
              have hrec := ih (s0 + sim * (w : ℝ)) (t0 + (w : ℝ)) s t cl
                (by rw [hr, h1])
              rw [hrec, List.map_cons, List.sum_cons]
              ring

lemma zip_weights_map_fst (N : ℕ) (tags : List String) (h : tags.length = N) :
    ((weightsList N).zip tags).map (fun p => ((p.1 : ℕ) : ℝ)) =
      (weightsList N).map (fun (w : ℕ) => (w : ℝ)) := by
  have hlen : (weightsList N).length ≤ tags.length := by simp [weightsList, h]
  have hfst : ((weightsList N).zip tags).map Prod.fst = weightsList N :=
    List.map_fst_zip _ _ hlen
  have hmm : ((weightsList N).zip tags).map (fun p => ((p.1 : ℕ) : ℝ)) =
      (((weightsList N).zip tags).map Prod.fst).map (fun (w : ℕ) => (w : ℝ)) := by
    rw [List.map_map]
    rfl
  rw [hmm, hfst]

lemma tagLoop_weights_total (embed : String → Except String (List ℝ)) (emb : List ℝ)
    (tags : List String) (s t : ℝ) (calls : List ApiCall)
    (h : tagLoop embed emb ((weightsList tags.length).zip tags) 0 0 =
      (Except.ok (s, t), calls)) :
    t = (tags.length : ℝ) * ((tags.length : ℝ) + 1) / 2 := by
  have htot := tagLoop_ok_total embed emb _ 0 0 s t calls h
  rw [zip_weights_map_fst tags.length tags rfl, weightsList_sum] at htot
  rw [htot]
  ring

/-- C6: when the pre-filter passes and the tag list is nonempty (and the
loop completes with total weight `t ≠ 0`), the verdict is exactly
`weighted_average >= threshold`; in particular an average equal to the
threshold yields `true` (inclusive boundary). -/
theorem C6_inclusive_threshold_boundary (embed : String → Except String (List ℝ))
    (article_title article_text : String) (solicitation_tags : List String)
    (solicitation_text : String) (θ local_threshold : ℝ) (emb : List ℝ)
    (s t : ℝ) (calls : List ApiCall)
    (hpass : passes_local_pre_filter article_text solicitation_text local_threshold =
      Except.ok true)
    (hne : solicitation_tags ≠ [])
    (hemb : embed article_text = Except.ok emb)
    (hloop : tagLoop embed emb
      ((weightsList solicitation_tags.length).zip solicitation_tags) 0 0 =
      (Except.ok (s, t), calls)) :
    ((article_is_relevant embed article_title article_text solicitation_tags
        solicitation_text (some θ) local_threshold).1 = Except.ok true ↔ s / t ≥ θ) ∧
    (s / t = θ →
      (article_is_relevant embed article_title article_text solicitation_tags
        solicitation_text (some θ) local_threshold).1 = Except.ok true) := by
  have hN : ¬ solicitation_tags.length = 0 := fun h => hne (List.length_eq_zero.mp h)
  have ht : t ≠ 0 := by
    have htot := tagLoop_weights_total embed emb solicitation_tags s t calls hloop
    have hN1 : 1 ≤ solicitation_tags.length := Nat.one_le_iff_ne_zero.mpr hN
    have hNR : (1 : ℝ) ≤ (solicitation_tags.length : ℝ) := by exact_mod_cast hN1
    rw [htot]
    intro h0
    nlinarith
  simp only [article_is_relevant, hpass, hemb, hloop, if_neg hN, if_neg ht,
    Option.getD_some]
  constructor
  · by_cases hge : s / t ≥ θ
    · rw [if_pos hge]
      simpa using hge
    · rw [if_neg hge]
      simp [hge]
  · intro heq
    rw [if_pos (ge_of_eq heq)]

/-- C6 witness: the boundary theorem applied at a concrete scenario where the
weighted average is exactly the threshold `1`. -/
theorem C6_inclusive_threshold_boundary_witness :
    passes_local_pre_filter "" "zz" (-1) = Except.ok true ∧
    (["x"] : List String) ≠ [] ∧
    ((fun _ => Except.ok [(1 : ℝ)]) : String → Except String (List ℝ)) "" =
      Except.ok [(1 : ℝ)] ∧
    tagLoop (fun _ => Except.ok [(1 : ℝ)]) [(1 : ℝ)]
        ((weightsList (["x"] : List String).length).zip ["x"]) 0 0 =
      (Except.ok (1, 1), [ApiCall.embedding "x"]) ∧
    (((article_is_relevant (fun _ => Except.ok [(1 : ℝ)]) "t" "" ["x"] "zz"
        (some 1) (-1)).1 = Except.ok true ↔ (1 : ℝ) / 1 ≥ 1) ∧
      ((1 : ℝ) / 1 = 1 →
        (article_is_relevant (fun _ => Except.ok [(1 : ℝ)]) "t" "" ["x"] "zz"
          (some 1) (-1)).1 = Except.ok true)) := by
  have hpass : passes_local_pre_filter "" "zz" (-1) = Except.ok true :=
    passes_empty_article_true "zz" (-1) (by decide) (by norm_num)
  have hloop : tagLoop (fun _ => Except.ok [(1 : ℝ)]) [(1 : ℝ)]
      ((weightsList (["x"] : List String).length).zip ["x"]) 0 0 =
      (Except.ok (1, 1), [ApiCall.embedding "x"]) := by
    rw [show ((weightsList (["x"] : List String).length).zip ["x"]) = [(1, "x")] from rfl]
    exact tagLoop_single_ok
  exact ⟨hpass, by simp, rfl, hloop,
    C6_inclusive_threshold_boundary (fun _ => Except.ok [(1 : ℝ)]) "t" "" ["x"] "zz"
      1 (-1) [(1 : ℝ)] 1 1 [ApiCall.embedding "x"] hpass (by simp) rfl hloop⟩

lemma cosine_error_form (a b : List ℝ) (e : Err)
    (h : compute_cosine_similarity a b = Except.error e) :
    e = Err.valueError "Vectors must be the same dimension." := by
  by_cases hl : a.length = b.length
  · rw [compute_cosine_similarity_of_length_eq a b hl] at h
    by_cases hz : sqSum a = 0 ∨ sqSum b = 0
    · rw [if_pos hz] at h
      simp at h
    · rw [if_neg hz] at h
      simp at h
  · rw [compute_cosine_similarity_of_length_ne a b hl] at h
    simp only [Except.error.injEq] at h
    exact h.symm

lemma passes_not_zerodiv (a s : String) (t : ℝ) :
    passes_local_pre_filter a s t ≠ Except.error Err.zeroDivisionError := by
  simp only [passes_local_pre_filter]
  by_cases hv : vocabulary [s, a] = []
  · rw [if_pos hv]
    simp
  · rw [if_neg hv]
    by_cases hc : tfidfCosine [s, a] s a ≥ t
    · rw [if_pos hc]
      simp
    · rw [if_neg hc]
      simp

lemma tagLoop_not_zerodiv (embed : String → Except String (List ℝ)) (emb : List ℝ) :
    ∀ (l : List (ℕ × String)) (s0 t0 : ℝ),
      (tagLoop embed emb l s0 t0).1 ≠ Except.error Err.zeroDivisionError := by
  intro l
  induction l with
  | nil =>
      intro s0 t0
      simp [tagLoop]
  | cons p rest ih =>
      intro s0 t0
      obtain ⟨w, tag⟩ := p
      cases hemb : embed tag with
      | error e => simp [tagLoop, hemb]
      | ok temb =>
          cases hcos : compute_cosine_similarity emb temb with
          | error e =>
              have hform := cosine_error_form emb temb e hcos
              simp [tagLoop, hemb, hcos, hform]
          | ok sim =>
              simp only [tagLoop, hemb, hcos]
              simpa using ih (s0 + sim * (w : ℝ)) (t0 + (w : ℝ))

/-- C9: when the tag list is nonempty and every tag-embedding call succeeds,
the accumulated `total_weight` is `N * (N + 1) / 2 ≥ 1`; consequently the
final division of `article_is_relevant` never divides by zero (no invocation
ever produces a `ZeroDivisionError`). -/
theorem C9_total_weight_no_zero_division :
    (∀ (embed : String → Except String (List ℝ))
      (article_title article_text : String) (solicitation_tags : List String)
      (solicitation_text : String) (threshold : Option ℝ) (local_threshold : ℝ),
      (article_is_relevant embed article_title article_text solicitation_tags
          solicitation_text threshold local_threshold).1 ≠
        Except.error Err.zeroDivisionError) ∧
    (∀ (embed : String → Except String (List ℝ)) (emb : List ℝ)
      (tags : List String) (s t : ℝ) (calls : List ApiCall),
      tagLoop embed emb ((weightsList tags.length).zip tags) 0 0 =
        (Except.ok (s, t), calls) →
      t = (tags.length : ℝ) * ((tags.length : ℝ) + 1) / 2 ∧
        (tags ≠ [] → 1 ≤ t)) := by
  have key : ∀ (embed : String → Except String (List ℝ)) (emb : List ℝ)
      (tags : List String) (s t : ℝ) (calls : List ApiCall),
      tagLoop embed emb ((weightsList tags.length).zip tags) 0 0 =
        (Except.ok (s, t), calls) →
      t = (tags.length : ℝ) * ((tags.length : ℝ) + 1) / 2 ∧ (tags ≠ [] → 1 ≤ t) := by
    intro embed emb tags s t calls h
    have htot := tagLoop_weights_total embed emb tags s t calls h
    refine ⟨htot, fun hne => ?_⟩
    have hN : 1 ≤ tags.length := Nat.one_le_iff_ne_zero.mpr
      (fun h0 => hne (List.length_eq_zero.mp h0))
    have hNR : (1 : ℝ) ≤ (tags.length : ℝ) := by exact_mod_cast hN
    rw [htot]
    nlinarith
  constructor
  · intro embed article_title atext tags stext thr lthr
    cases hpass : passes_local_pre_filter atext stext lthr with
    | error e =>
        simp only [article_is_relevant, hpass]
        intro hcontra
        have he : e = Err.zeroDivisionError := by simpa using hcontra
        exact passes_not_zerodiv atext stext lthr (he ▸ hpass)
    | ok b =>
        cases b with
        | false => simp [article_is_relevant, hpass]
        | true =>
            by_cases hN : tags.length = 0
            · have hnil : tags = [] := List.length_eq_zero.mp hN
              simp [article_is_relevant, hpass, hnil]
            · have hnil : tags ≠ [] := fun h0 => hN (by simp [h0])
              cases hemb : embed atext with
              | error e => simp [article_is_relevant, hpass, hnil, hemb]
              | ok emb =>
                  rcases hloop : tagLoop embed emb
                      ((weightsList tags.length).zip tags) 0 0 with ⟨res, calls⟩
                  cases res with
                  | error e =>
                      have hnz := tagLoop_not_zerodiv embed emb
                        ((weightsList tags.length).zip tags) 0 0
                      rw [hloop] at hnz
                      simp only [article_is_relevant, hpass, if_neg hN, hemb, hloop]
                      simpa using hnz
                  | ok st =>
                      obtain ⟨s, t⟩ := st
                      have hkey := key embed emb tags s t calls hloop
                      have ht : t ≠ 0 := by
                        have h1 := hkey.2 (fun h0 => hN (by simp [h0]))
                        intro h0
                        rw [h0] at h1
                        norm_num at h1
                      simp only [article_is_relevant, hpass, if_neg hN, hemb, hloop,
                        if_neg ht]
                      by_cases hge : s / t ≥ thr.getD RELEVANCE_THRESHOLD
                      · simp [if_pos hge]
                      · simp [if_neg hge]
  · exact key

/-- C9 witness: the loop-total clause applied at a concrete one-tag run
(total weight `1 = 1 * 2 / 2`), plus a concrete invocation that does not
raise `ZeroDivisionError`. -/
theorem C9_total_weight_no_zero_division_witness :
    tagLoop (fun _ => Except.ok [(1 : ℝ)]) [(1 : ℝ)]
        ((weightsList (["x"] : List String).length).zip ["x"]) 0 0 =
      (Except.ok (1, 1), [ApiCall.embedding "x"]) ∧
    ((1 : ℝ) = ((["x"] : List String).length : ℝ) *
        (((["x"] : List String).length : ℝ) + 1) / 2 ∧
      ((["x"] : List String) ≠ [] → (1 : ℝ) ≤ 1)) ∧
    (article_is_relevant (fun _ => Except.ok [(1 : ℝ)]) "t" "" ["x"] "zz"
        (some 1) (-1)).1 ≠ Except.error Err.zeroDivisionError := by
  have hloop : tagLoop (fun _ => Except.ok [(1 : ℝ)]) [(1 : ℝ)]
      ((weightsList (["x"] : List String).length).zip ["x"]) 0 0 =
      (Except.ok (1, 1), [ApiCall.embedding "x"]) := by
    rw [show ((weightsList (["x"] : List String).length).zip ["x"]) = [(1, "x")] from rfl]
    exact tagLoop_single_ok
  exact ⟨hloop,
    C9_total_weight_no_zero_division.2 (fun _ => Except.ok [(1 : ℝ)]) [(1 : ℝ)]
      ["x"] 1 1 [ApiCall.embedding "x"] hloop,
    C9_total_weight_no_zero_division.1 (fun _ => Except.ok [(1 : ℝ)]) "t" "" ["x"]
      "zz" (some 1) (-1)⟩

lemma tagLoop_boom :
    tagLoop (fun s => if s = "tag2" then Except.error "boom" else Except.ok [(1 : ℝ)])
      [(1 : ℝ)] [(3, "tag1"), (2, "tag2"), (1, "tag3")] 0 0 =
      (Except.error (Err.apiError "boom"),
        [ApiCall.embedding "tag1", ApiCall.embedding "tag2"]) := by
  have h1 : (if ("tag1" : String) = "tag2" then
      (Except.error "boom" : Except String (List ℝ)) else Except.ok [(1 : ℝ)]) =
      Except.ok [(1 : ℝ)] := by rw [if_neg (by decide)]
  simp only [tagLoop, h1, cosine_one_one, eq_self_iff_true, if_true]

/-- C2: the claim says a failed tag-embedding call is skipped and the
weighted average renormalized (divisor 4 for weights `[3,2,1]` with the
weight-2 tag failing).  The loop has no exception handling: at that exact
scenario the exception propagates, `article_is_relevant` aborts with the
embedding error, and the third tag is never embedded (trace stops at the
failing tag). -/
theorem C2_embedding_failure_aborts :
    article_is_relevant
        (fun s => if s = "tag2" then Except.error "boom" else Except.ok [(1 : ℝ)])
        "t" "" ["tag1", "tag2", "tag3"] "zz" (some 0) (-1) =
      (Except.error (Err.apiError "boom"),
        [ApiCall.embedding "", ApiCall.embedding "tag1", ApiCall.embedding "tag2"]) := by
  have hpass : passes_local_pre_filter "" "zz" (-1) = Except.ok true :=
    passes_empty_article_true "zz" (-1) (by decide) (by norm_num)
  have hemb : (if ("" : String) = "tag2" then
      (Except.error "boom" : Except String (List ℝ)) else Except.ok [(1 : ℝ)]) =
      Except.ok [(1 : ℝ)] := by rw [if_neg (by decide)]
  have hzip : (weightsList (["tag1", "tag2", "tag3"] : List String).length).zip
      ["tag1", "tag2", "tag3"] = [(3, "tag1"), (2, "tag2"), (1, "tag3")] := rfl
  have hN : (["tag1", "tag2", "tag3"] : List String) ≠ [] := by simp
  simp only [article_is_relevant, hpass, hemb, hzip, tagLoop_boom]
  simp [hN]

/-- ASCII whitespace stripped by Python's `str.strip()`. -/
def isPySpace (c : Char) : Bool :=
  c = ' ' || c = '\t' || c = '\n' || c = '\r' || c = '\x0b' || c = '\x0c'

/-- Python `str.strip()` on character lists: drop whitespace from the front,
then from the back. -/
def stripData (l : List Char) : List Char :=
  (l.dropWhile isPySpace).rdropWhile isPySpace

/-- Python `str.split(",")` on character lists: split at every comma,
keeping empty pieces (`"".split(",") == [""]`). -/
def splitComma : List Char → List (List Char)
  | [] => [[]]
  | c :: cs =>
    match splitComma cs with
    | [] => [[c]]
    | p :: ps => if c = ',' then [] :: p :: ps else (c :: p) :: ps

/-- Python `str.strip()`. -/
def pyStrip (s : String) : String := String.mk (stripData s.data)

/-- Python `s.split(",")`. -/
def pySplitComma (s : String) : List String := (splitComma s.data).map String.mk

/-- Appends a character to the last piece of a split (the effect a trailing
non-comma character has on `splitComma`). -/
def appendLast (c : Char) : List (List Char) → List (List Char)
  | [] => [[c]]
  | [p] => [p ++ [c]]
  | p :: q :: ps => p :: appendLast c (q :: ps)

lemma splitComma_ne_nil (l : List Char) : splitComma l ≠ [] := by
  induction l with
  | nil => simp [splitComma]
  | cons c cs ih =>
      simp only [splitComma]
      cases h : splitComma cs with
      | nil => simp
      | cons p ps => by_cases hc : c = ',' <;> simp [hc]

lemma splitComma_exists_cons (l : List Char) :
    ∃ p ps, splitComma l = p :: ps := by
  cases h : splitComma l with
  | nil => exact absurd h (splitComma_ne_nil l)
  | cons p ps => exact ⟨p, ps, rfl⟩

lemma splitComma_snoc (xs : List Char) (c : Char) :
    splitComma (xs ++ [c]) =
      if c = ',' then splitComma xs ++ [[]] else appendLast c (splitComma xs) := by
  induction xs with
  | nil => by_cases hc : c = ',' <;> simp [splitComma, appendLast, hc]
  | cons x xs ih =>
      obtain ⟨p, ps, hps⟩ := splitComma_exists_cons xs
      by_cases hc : c = ','
      · subst hc
        cases ps with
        | nil => by_cases hx : x = ',' <;>
            simp [splitComma, ih, hps, appendLast, hx]
        | cons q qs => by_cases hx : x = ',' <;>
            simp [splitComma, ih, hps, appendLast, hx]
      · cases ps with
        | nil => by_cases hx : x = ',' <;>
            simp [splitComma, ih, hps, appendLast, hx, hc]
        | cons q qs => by_cases hx : x = ',' <;>
            simp [splitComma, ih, hps, appendLast, hx, hc]

lemma stripData_cons_space (c : Char) (hc : isPySpace c = true) (p : List Char) :
    stripData (c :: p) = stripData p := by
  simp [stripData, List.dropWhile_cons, hc]

lemma dropWhile_append_ne_nil (q : Char → Bool) :
    ∀ (xs ys : List Char), xs.dropWhile q ≠ [] →
      (xs ++ ys).dropWhile q = xs.dropWhile q ++ ys := by
  intro xs
  induction xs with
  | nil => intro ys h; exact absurd rfl h
  | cons x xs ih =>
      intro ys h
      by_cases hx : q x
      · rw [List.dropWhile_cons_of_pos hx] at h
        rw [List.cons_append, List.dropWhile_cons_of_pos hx,
          List.dropWhile_cons_of_pos hx, ih ys h]
      · rw [List.cons_append, List.dropWhile_cons_of_neg hx,
          List.dropWhile_cons_of_neg hx, List.cons_append]

lemma stripData_snoc_space (c : Char) (hc : isPySpace c = true) (p : List Char) :
    stripData (p ++ [c]) = stripData p := by
  by_cases hq : p.dropWhile isPySpace = []
  · have hall : ∀ x ∈ p, isPySpace x := List.dropWhile_eq_nil_iff.mp hq
    have hall2 : (p ++ [c]).dropWhile isPySpace = [] := by
      refine List.dropWhile_eq_nil_iff.mpr ?_
      intro x hx
      rcases List.mem_append.mp hx with h | h
      · exact hall x h
      · simp only [List.mem_singleton] at h
        subst h
        exact hc
    rw [stripData, stripData, hq, hall2]
  · rw [stripData, stripData, dropWhile_append_ne_nil isPySpace p [c] hq,
      List.rdropWhile_concat_pos isPySpace (p.dropWhile isPySpace) c hc]

lemma map_strip_appendLast (c : Char) (hc : isPySpace c = true) :
    ∀ (r : List (List Char)), r ≠ [] →
      (appendLast c r).map stripData = r.map stripData := by
  intro r
  induction r with
  | nil => intro h; exact absurd rfl h
  | cons p ps ih =>
      intro _
      cases ps with
      | nil => simp [appendLast, stripData_snoc_space c hc p]
      | cons q qs =>
          simp only [appendLast, List.map_cons]
          rw [List.map_cons] at ih
          have := ih (by simp)
          simp only [List.map_cons] at this
          rw [this]

lemma isPySpace_not_comma (c : Char) (hc : isPySpace c = true) : ¬ c = ',' := by
  intro h
  subst h
  exact absurd hc (by decide)

lemma map_strip_splitComma_lstrip (l : List Char) :
    (splitComma (l.dropWhile isPySpace)).map stripData =
      (splitComma l).map stripData := by
  induction l with
  | nil => rfl
  | cons c cs ih =>
      by_cases hc : isPySpace c
      · rw [List.dropWhile_cons_of_pos hc, ih]
        obtain ⟨p, ps, hps⟩ := splitComma_exists_cons cs
        simp [splitComma, hps, isPySpace_not_comma c hc,
          stripData_cons_space c hc]
      · rw [List.dropWhile_cons_of_neg hc]

lemma map_strip_splitComma_rstrip (l : List Char) :
    (splitComma (l.rdropWhile isPySpace)).map stripData =
      (splitComma l).map stripData := by
  induction l using List.reverseRecOn with
  | nil => rfl
  | append_singleton xs c ih =>
      by_cases hc : isPySpace c
      · rw [List.rdropWhile_concat_pos isPySpace xs c hc, ih,
          splitComma_snoc, if_neg (isPySpace_not_comma c hc),
          map_strip_appendLast c hc (splitComma xs) (splitComma_ne_nil xs)]
      · rw [List.rdropWhile_concat_neg isPySpace xs c hc]

lemma map_strip_splitComma_strip (l : List Char) :
    (splitComma (stripData l)).map stripData = (splitComma l).map stripData := by
  rw [stripData, map_strip_splitComma_rstrip, map_strip_splitComma_lstrip]

lemma head_dropWhile_not_space (m : List Char) (c : Char) (rest : List Char)
    (h : m.dropWhile isPySpace = c :: rest) : isPySpace c = false := by
  by_contra hc
  simp only [Bool.not_eq_false] at hc
  have hidem := List.dropWhile_idempotent isPySpace m
  rw [h, List.dropWhile_cons_of_pos hc] at hidem
  have hsuf : rest.dropWhile isPySpace <:+ rest := List.dropWhile_suffix isPySpace
  have hle := hsuf.sublist.length_le
  rw [hidem] at hle
  simp at hle

lemma dropWhile_stripData (l : List Char) :
    (stripData l).dropWhile isPySpace = stripData l := by
  obtain ⟨t, ht⟩ : stripData l <+: l.dropWhile isPySpace :=
    List.rdropWhile_prefix isPySpace (l.dropWhile isPySpace)
  cases hs : stripData l with
  | nil => rfl
  | cons c rest =>
      rw [hs] at ht
      have hhead : l.dropWhile isPySpace = c :: (rest ++ t) := by
        rw [← ht]
        rfl
      have hc := head_dropWhile_not_space l c (rest ++ t) hhead
      rw [List.dropWhile_cons_of_neg (by simp [hc])]

lemma stripData_idem (l : List Char) : stripData (stripData l) = stripData l := by
  show ((stripData l).dropWhile isPySpace).rdropWhile isPySpace = stripData l
  rw [dropWhile_stripData l]
  exact List.rdropWhile_idempotent isPySpace (l.dropWhile isPySpace)

lemma pyStrip_idem (s : String) : pyStrip (pyStrip s) = pyStrip s :=
  congrArg String.mk (stripData_idem s.data)

lemma pyParse_eq (x : String) :
    (pySplitComma x).map pyStrip = ((splitComma x.data).map stripData).map String.mk := by
  rw [pySplitComma, List.map_map, List.map_map]
  rfl

lemma parse_strip_eq (x : String) :
    ((pySplitComma (pyStrip x)).map pyStrip).filter (fun t => t ≠ "") =
      ((pySplitComma x).map pyStrip).filter (fun t => t ≠ "") := by
  rw [pyParse_eq, pyParse_eq,
    show (pyStrip x).data = stripData x.data from rfl,
    map_strip_splitComma_strip]

/-- The Step-1 prompt of `generate_tags_multi_step` (f-string of lines
80-92, with the article text interpolated). -/
def step1Prompt (article_text : String) : String :=
  "\n    You are a domain expert. Examine the following text and identify the *main domain(s) or sector(s)* it pertains to.\n    For example, \"naval technology,\" \"military aerospace,\" \"health and pharmaceuticals,\" \"renewable energy,\" etc.\n\n    The text is:\n    ---\n    "
    ++ article_text ++
    "\n    ---\n\n    Please return one to three short domain/sector labels in a single line, comma-separated, e.g.:\n    \"naval technology, submarine manufacturing\" or \"pharmaceutical research\".\n    If the text is unclear, do your best guess.\n    "

/-- The Step-2 prompt of `generate_tags_multi_step` (f-string of lines
116-127, with the Step-1 domain line and the article text interpolated). -/
def step2Prompt (article_text domain_line : String) : String :=
  "\n    We have identified the following domain(s) or sector(s): " ++ domain_line ++
    "\n\n    Now, given the text and these domain labels, please generate 3-5 short keyword tags\n    that best capture the text\x27s specific topics. Avoid overly generic words or unrelated domains.\n    Provide them in a comma-separated format. For example: \"naval engineering, submarine stealth, industrial espionage\"\n\n    The text again is:\n    ---\n    "
    ++ article_text ++ "\n    ---\n    "

/-- The Step-1 `ChatCompletion.create` request (lines 99-107). -/
noncomputable def step1Request (article_text : String) : ChatRequest :=
  ChatRequest.mk GPT_MODEL_CHAT
    "You are an expert in identifying the domain or sector of a text."
    (step1Prompt article_text) 0.3 200

/-- The Step-2 `ChatCompletion.create` request (lines 134-142). -/
noncomputable def step2Request (article_text domain_line : String) : ChatRequest :=
  ChatRequest.mk GPT_MODEL_CHAT
    "You are an expert in generating short keyword tags for a given domain."
    (step2Prompt article_text domain_line) 0.5 200

/-- `generate_tags_multi_step` from `news_relevance.py` (lines 70-157):
two chained chat calls; the Step-1 content is stripped into `domain_line`;
the Step-2 content is stripped, split on commas, each piece stripped, and
empty pieces discarded.  A failing chat call propagates. -/
noncomputable def generate_tags_multi_step (chat : ChatRequest → Except String String)
    (article_text : String) : Except Err (List String) × List ApiCall :=
  let req1 := step1Request article_text
  match chat req1 with
  | Except.error e => (Except.error (Err.apiError e), [ApiCall.chat req1])
  | Except.ok content1 =>
      let domain_line := pyStrip content1
      let req2 := step2Request article_text domain_line
      match chat req2 with
      | Except.error e =>
          (Except.error (Err.apiError e), [ApiCall.chat req1, ApiCall.chat req2])
      | Except.ok content2 =>
          let tags_text := pyStrip content2
          let final_tags :=
            ((pySplitComma tags_text).map pyStrip).filter (fun t => t ≠ "")
          (Except.ok final_tags, [ApiCall.chat req1, ApiCall.chat req2])

/-- C8: when both chat calls succeed and the Step-2 model output is
`content2`, the returned tag list is exactly `content2` split on commas,
each piece stripped of surrounding whitespace, empty pieces discarded and
order preserved; every returned tag is nonempty and carries no surrounding
whitespace. -/
theorem C8_tag_list_parsing (chat : ChatRequest → Except String String)
    (article_text content1 content2 : String)
    (h1 : chat (step1Request article_text) = Except.ok content1)
    (h2 : chat (step2Request article_text (pyStrip content1)) = Except.ok content2) :
    (generate_tags_multi_step chat article_text).1 =
      Except.ok (((pySplitComma content2).map pyStrip).filter (fun t => t ≠ "")) ∧
    ∀ tag ∈ ((pySplitComma content2).map pyStrip).filter (fun t => t ≠ ""),
      tag ≠ "" ∧ pyStrip tag = tag := by
  constructor
  · simp only [generate_tags_multi_step, h1, h2]
    rw [parse_strip_eq content2]
  · intro tag htag
    rw [List.mem_filter] at htag
    obtain ⟨hmem, hne⟩ := htag
    have hne2 : tag ≠ "" := by simpa using hne
    refine ⟨hne2, ?_⟩
    obtain ⟨u, _, rfl⟩ := List.mem_map.mp hmem
    exact pyStrip_idem u

/-- C8 witness: the parsing theorem applied to a constant oracle whose
Step-2 output is `" naval, sub "`, whose parsed tag list evaluates to
`["naval", "sub"]`. -/
theorem C8_tag_list_parsing_witness :
    ((fun _ => Except.ok " naval, sub ") : ChatRequest → Except String String)
        (step1Request "a") = Except.ok " naval, sub " ∧
    ((fun _ => Except.ok " naval, sub ") : ChatRequest → Except String String)
        (step2Request "a" (pyStrip " naval, sub ")) = Except.ok " naval, sub " ∧
    ((pySplitComma " naval, sub ").map pyStrip).filter (fun t => t ≠ "") =
      ["naval", "sub"] ∧
    ((generate_tags_multi_step (fun _ => Except.ok " naval, sub ") "a").1 =
        Except.ok (((pySplitComma " naval, sub ").map pyStrip).filter
          (fun t => t ≠ "")) ∧
      ∀ tag ∈ ((pySplitComma " naval, sub ").map pyStrip).filter (fun t => t ≠ ""),
        tag ≠ "" ∧ pyStrip tag = tag) :=
  ⟨rfl, rfl, by decide,
    C8_tag_list_parsing (fun _ => Except.ok " naval, sub ") "a"
      " naval, sub " " naval, sub " rfl rfl⟩
